import Mathlib

/-!
A shallow embedding of the `ReferralSystem` Solidity contract
(`src/unnamed/part_011`, the demo-mode variant, which is the version the
specification describes) together with proofs about its referral
state machine.  Addresses are natural numbers with `0` as the zero
address, the EVM storage is a record of total functions, timestamps
(`block.timestamp`) and the caller (`msg.sender`) are explicit
parameters, and a reverting call is an `Except.error`: in the EVM a
revert rolls the whole transaction back, so an errored call carries no
state and the pre-state survives unchanged.
-/

set_option autoImplicit false

namespace ReferralSystem

/-- Addresses are modelled as natural numbers; `0` is the zero address. -/
abbrev Addr := Nat

/-- The typed errors of `ReferralSystem` (`error ...` declarations), the
OpenZeppelin `Pausable` / `Ownable` errors raised by the modifiers, and the
standard token-ledger errors. -/
inductive Err where
  | invalidAddress
  | invalidAmount
  | selfReferralNotAllowed
  | userAlreadyReferred
  | referralTooSoon
  | maxReferralsExceeded
  | insufficientTokenBalance
  | unauthorizedBackend
  | invalidReferralCode
  | referralCodeAlreadyExists
  | enforcedPause
  | expectedPause
  | ownableUnauthorizedAccount
  | erc20InvalidSender
  | erc20InvalidReceiver
  | erc20InsufficientBalance
  deriving DecidableEq

/-- The `Referral` struct of the contract. -/
structure Referral where
  referee : Addr
  referrer : Addr
  timestamp : Nat
  referrerReward : Nat
  refereeReward : Nat
  deriving DecidableEq

/-- Point update of a total map, modelling a Solidity mapping write. -/
def upd {α β : Type} [DecidableEq α] (m : α → β) (k : α) (v : β) : α → β :=
  fun a => if a = k then v else m a

/-- The contract storage of `ReferralSystem`, together with the ledger of the
referral token it pays rewards from.  `thisAddr` is `address(this)`;
`backendRole` is the `BACKEND_ROLE` membership of `AccessControl`. -/
structure State where
  thisAddr : Addr
  owner : Addr
  backendRole : Addr → Bool
  referrerReward : Nat
  refereeReward : Nat
  minReferralInterval : Nat
  maxReferralsPerUser : Nat
  frontendMode : Bool
  demoMode : Bool
  paused : Bool
  userReferrals : Addr → List Referral
  lastReferralTime : Addr → Nat
  totalReferrals : Addr → Nat
  totalRewardsEarned : Addr → Nat
  hasBeenReferred : Addr → Bool
  referralCodeToAddress : String → Addr
  addressToReferralCode : Addr → String
  demoReferralCodes : String → Addr
  tokenBalances : Addr → Nat
  tokenPaused : Bool

/-- The `transfer` path of the `ReferralToken` contract (`ReferralToken.sol`,
staged in `src/CONTRIBUTING.md`): `ERC20.transfer` runs `_transfer`, which
rejects a zero sender and a zero receiver, then calls the contract's
overridden `_update` — guarded by `whenNotPaused`, so a paused token reverts —
which rejects an insufficient sender balance and otherwise moves `amount`
from `source` to `dest`.  The token's mint, burn and allowance paths are not
reachable from the `ReferralSystem` functions verified here. -/
def tokenTransfer (tokenPaused : Bool) (bal : Addr → Nat) (source dest : Addr)
    (amount : Nat) : Except Err (Addr → Nat) :=
  if source = 0 then .error .erc20InvalidSender
  else if dest = 0 then .error .erc20InvalidReceiver
  else if tokenPaused = true then .error .enforcedPause
  else if bal source < amount then .error .erc20InsufficientBalance
  else
    let bal1 := upd bal source (bal source - amount)
    .ok (upd bal1 dest (bal1 dest + amount))

/-- The body of `_isDemoAddress`, over the two pieces of storage it reads. -/
def isDemoAddressCheck (demoMode : Bool) (codes : String → Addr) (a : Addr) : Bool :=
  if demoMode = false then false
  else if a = codes "REF_ABC123" ∨
          a = codes "REF_DEF456" ∨
          a = codes "REF_GHI789" ∨
          a = codes "REF_JKL012" ∨
          a = codes "REF_MNO345" ∨
          a = codes "REF_PQR678" then true
  else false

/-- `_isDemoAddress`: true exactly when demo mode is on and the address is one
of the addresses currently stored under the six seeded demo-code keys. -/
def isDemoAddress (s : State) (a : Addr) : Bool :=
  isDemoAddressCheck s.demoMode s.demoReferralCodes a

/-- `_getReferrerFromCode`: user-registered pool first, then the demo pool
when demo mode is enabled, else not-found (`0`). -/
def getReferrerFromCodeInternal (s : State) (code : String) : Addr :=
  let userReferrer := s.referralCodeToAddress code
  if userReferrer ≠ 0 then userReferrer
  else if s.demoMode = true then s.demoReferralCodes code
  else 0

/-- `_distributeRewards`: conservative full-sum balance check, then the
referrer leg (skipped for demo referrers), then the referee leg. -/
def distributeRewards (s : State) (referrerA refereeA : Addr) : Except Err State :=
  if s.tokenBalances s.thisAddr < s.referrerReward + s.refereeReward then
    .error .insufficientTokenBalance
  else
    let afterReferrer : Except Err State :=
      if isDemoAddress s referrerA = false then
        match tokenTransfer s.tokenPaused s.tokenBalances s.thisAddr referrerA s.referrerReward with
        | .error e => .error e
        | .ok bal =>
          .ok { s with tokenBalances := bal,
                       totalRewardsEarned := upd s.totalRewardsEarned referrerA
                         (s.totalRewardsEarned referrerA + s.referrerReward) }
      else .ok s
    match afterReferrer with
    | .error e => .error e
    | .ok s1 =>
      match tokenTransfer s1.tokenPaused s1.tokenBalances s1.thisAddr refereeA s1.refereeReward with
      | .error e => .error e
      | .ok bal =>
        .ok { s1 with tokenBalances := bal,
                      totalRewardsEarned := upd s1.totalRewardsEarned refereeA
                        (s1.totalRewardsEarned refereeA + s1.refereeReward) }

/-- `_processReferralInternal`: the validation sequence, the registry updates,
and the reward distribution. -/
def processReferralInternal (s : State) (now : Nat) (refereeA referrerA : Addr) :
    Except Err State :=
  if refereeA = 0 ∨ referrerA = 0 then .error .invalidAddress
  else if refereeA = referrerA then .error .selfReferralNotAllowed
  else if s.hasBeenReferred refereeA = true then .error .userAlreadyReferred
  else if isDemoAddress s referrerA = false ∧
          now < s.lastReferralTime referrerA + s.minReferralInterval then
    .error .referralTooSoon
  else if isDemoAddress s referrerA = false ∧
          s.maxReferralsPerUser ≤ s.totalReferrals referrerA then
    .error .maxReferralsExceeded
  else
    let s1 := { s with hasBeenReferred := upd s.hasBeenReferred refereeA true }
    let s2 :=
      if isDemoAddress s1 referrerA = false then
        { s1 with lastReferralTime := upd s1.lastReferralTime referrerA now,
                  totalReferrals := upd s1.totalReferrals referrerA
                    (s1.totalReferrals referrerA + 1) }
      else s1
    let newReferral : Referral :=
      { referee := refereeA, referrer := referrerA, timestamp := now,
        referrerReward := s2.referrerReward, refereeReward := s2.refereeReward }
    let s3 := { s2 with userReferrals := upd s2.userReferrals referrerA
                            (s2.userReferrals referrerA ++ [newReferral]) }
    let s4 := { s3 with userReferrals := upd s3.userReferrals refereeA
                            (s3.userReferrals refereeA ++ [newReferral]) }
    distributeRewards s4 referrerA refereeA

/-- `processReferral` entry point (the `nonReentrant` modifier has no
observable effect in this single-call embedding). -/
def processReferral (s : State) (sender refereeA referrerA : Addr) (now : Nat) :
    Except Err State :=
  if s.paused = true then .error .enforcedPause
  else if s.frontendMode = false ∧ s.backendRole sender = false then
    .error .unauthorizedBackend
  else processReferralInternal s now refereeA referrerA

/-- `processReferralByCode` entry point: the caller is the referee. -/
def processReferralByCode (s : State) (sender : Addr) (code : String) (now : Nat) :
    Except Err State :=
  if s.paused = true then .error .enforcedPause
  else if s.frontendMode = false then .error .unauthorizedBackend
  else
    let referrer := getReferrerFromCodeInternal s code
    if referrer = 0 then .error .invalidReferralCode
    else processReferralInternal s now sender referrer

/-- `registerReferralCode` (note: the source has no `whenNotPaused` modifier
on this function). -/
def registerReferralCode (s : State) (sender : Addr) (code : String) :
    Except Err State :=
  if s.frontendMode = false then .error .unauthorizedBackend
  else if code.length = 0 then .error .invalidReferralCode
  else if s.referralCodeToAddress code ≠ 0 then .error .referralCodeAlreadyExists
  else
    let oldCode := s.addressToReferralCode sender
    let s1 :=
      if 0 < oldCode.length then
        { s with referralCodeToAddress := upd s.referralCodeToAddress oldCode 0 }
      else s
    .ok { s1 with referralCodeToAddress := upd s1.referralCodeToAddress code sender,
                  addressToReferralCode := upd s1.addressToReferralCode sender code }

/-- `addDemoCode` (owner only). -/
def addDemoCode (s : State) (sender : Addr) (code : String) (referrer : Addr) :
    Except Err State :=
  if sender ≠ s.owner then .error .ownableUnauthorizedAccount
  else if referrer = 0 then .error .invalidAddress
  else .ok { s with demoReferralCodes := upd s.demoReferralCodes code referrer }

/-- `setDemoMode` (owner only). -/
def setDemoMode (s : State) (sender : Addr) (enabled : Bool) : Except Err State :=
  if sender ≠ s.owner then .error .ownableUnauthorizedAccount
  else .ok { s with demoMode := enabled }

/-- `setFrontendMode` (owner only). -/
def setFrontendMode (s : State) (sender : Addr) (enabled : Bool) : Except Err State :=
  if sender ≠ s.owner then .error .ownableUnauthorizedAccount
  else .ok { s with frontendMode := enabled }

/-- `updateRewardAmounts` (owner only). -/
def updateRewardAmounts (s : State) (sender : Addr) (r f : Nat) : Except Err State :=
  if sender ≠ s.owner then .error .ownableUnauthorizedAccount
  else if r = 0 ∨ f = 0 then .error .invalidAmount
  else .ok { s with referrerReward := r, refereeReward := f }

/-- `updateMinReferralInterval` (owner only). -/
def updateMinReferralInterval (s : State) (sender : Addr) (i : Nat) : Except Err State :=
  if sender ≠ s.owner then .error .ownableUnauthorizedAccount
  else .ok { s with minReferralInterval := i }

/-- `updateMaxReferralsPerUser` (owner only). -/
def updateMaxReferralsPerUser (s : State) (sender : Addr) (m : Nat) : Except Err State :=
  if sender ≠ s.owner then .error .ownableUnauthorizedAccount
  else if m = 0 then .error .invalidAmount
  else .ok { s with maxReferralsPerUser := m }

/-- `addBackendWallet` (owner only). -/
def addBackendWallet (s : State) (sender w : Addr) : Except Err State :=
  if sender ≠ s.owner then .error .ownableUnauthorizedAccount
  else if w = 0 then .error .invalidAddress
  else .ok { s with backendRole := upd s.backendRole w true }

/-- `removeBackendWallet` (owner only). -/
def removeBackendWallet (s : State) (sender w : Addr) : Except Err State :=
  if sender ≠ s.owner then .error .ownableUnauthorizedAccount
  else .ok { s with backendRole := upd s.backendRole w false }

/-- `pause` (owner only; OZ `_pause` requires not already paused). -/
def pause (s : State) (sender : Addr) : Except Err State :=
  if sender ≠ s.owner then .error .ownableUnauthorizedAccount
  else if s.paused = true then .error .enforcedPause
  else .ok { s with paused := true }

/-- `unpause` (owner only; OZ `_unpause` requires currently paused). -/
def unpause (s : State) (sender : Addr) : Except Err State :=
  if sender ≠ s.owner then .error .ownableUnauthorizedAccount
  else if s.paused = false then .error .expectedPause
  else .ok { s with paused := false }

/-- `emergencyWithdraw` restricted to the tracked referral-token ledger (a
withdrawal of a foreign token touches no storage modelled here). -/
def emergencyWithdraw (s : State) (sender : Addr) (amount : Nat) : Except Err State :=
  if sender ≠ s.owner then .error .ownableUnauthorizedAccount
  else
    match tokenTransfer s.tokenPaused s.tokenBalances s.thisAddr s.owner amount with
    | .error e => .error e
    | .ok bal => .ok { s with tokenBalances := bal }

/-- `getUserStats` view: `(totalReferrals, totalRewardsEarned,
lastReferralTime, hasBeenReferred)`. -/
def getUserStats (s : State) (u : Addr) : Nat × Nat × Nat × Bool :=
  (s.totalReferrals u, s.totalRewardsEarned u, s.lastReferralTime u, s.hasBeenReferred u)

/-- `getReferrerFromCode` view. -/
def getReferrerFromCode (s : State) (code : String) : Addr :=
  getReferrerFromCodeInternal s code

/-- `getReferralCode` view. -/
def getReferralCode (s : State) (u : Addr) : String :=
  s.addressToReferralCode u

/-- `getReferrals` view. -/
def getReferrals (s : State) (u : Addr) : List Referral :=
  s.userReferrals u

/-- `isEligibleForReferral` view. -/
def isEligibleForReferral (s : State) (u : Addr) (now : Nat) : Bool :=
  if s.hasBeenReferred u = true then false
  else if now < s.lastReferralTime u + s.minReferralInterval then false
  else if s.maxReferralsPerUser ≤ s.totalReferrals u then false
  else true

/-- The state observed after a call: a reverted (errored) call rolls the
transaction back, leaving the pre-state. -/
def execState (r : Except Err State) (s : State) : State :=
  match r with
  | .ok s' => s'
  | .error _ => s

/-- One external state-mutating entry point of the contract, with its caller
and (where the body reads `block.timestamp`) the block time. -/
inductive Op where
  | processReferral (sender refereeA referrerA : Addr) (now : Nat)
  | processReferralByCode (sender : Addr) (code : String) (now : Nat)
  | registerReferralCode (sender : Addr) (code : String)
  | addDemoCode (sender : Addr) (code : String) (referrer : Addr)
  | setDemoMode (sender : Addr) (enabled : Bool)
  | setFrontendMode (sender : Addr) (enabled : Bool)
  | updateRewardAmounts (sender : Addr) (r f : Nat)
  | updateMinReferralInterval (sender : Addr) (i : Nat)
  | updateMaxReferralsPerUser (sender : Addr) (m : Nat)
  | addBackendWallet (sender w : Addr)
  | removeBackendWallet (sender w : Addr)
  | pause (sender : Addr)
  | unpause (sender : Addr)
  | emergencyWithdraw (sender : Addr) (amount : Nat)

/-- Dispatch of an entry point on a state. -/
def exec (op : Op) (s : State) : Except Err State :=
  match op with
  | .processReferral sender refereeA referrerA now => processReferral s sender refereeA referrerA now
  | .processReferralByCode sender code now => processReferralByCode s sender code now
  | .registerReferralCode sender code => registerReferralCode s sender code
  | .addDemoCode sender code referrer => addDemoCode s sender code referrer
  | .setDemoMode sender enabled => setDemoMode s sender enabled
  | .setFrontendMode sender enabled => setFrontendMode s sender enabled
  | .updateRewardAmounts sender r f => updateRewardAmounts s sender r f
  | .updateMinReferralInterval sender i => updateMinReferralInterval s sender i
  | .updateMaxReferralsPerUser sender m => updateMaxReferralsPerUser s sender m
  | .addBackendWallet sender w => addBackendWallet s sender w
  | .removeBackendWallet sender w => removeBackendWallet s sender w
  | .pause sender => pause s sender
  | .unpause sender => unpause s sender
  | .emergencyWithdraw sender amount => emergencyWithdraw s sender amount

/-- Modelled stand-in for `address(uint160(uint256(keccak256("DEMO_REF_ABC123"))))`:
the source derives six fixed, pairwise-distinct synthetic demo addresses by
hashing fixed strings; the embedding uses fixed distinct numerals below
`2 ^ 160` for these constants (no claim depends on their exact values, only on
what the `demoReferralCodes` mapping stores). -/
def demoAddr1 : Addr := 11400001

/-- Modelled keccak-derived demo address for `"REF_DEF456"`. -/
def demoAddr2 : Addr := 11400002

/-- Modelled keccak-derived demo address for `"REF_GHI789"`. -/
def demoAddr3 : Addr := 11400003

/-- Modelled keccak-derived demo address for `"REF_JKL012"`. -/
def demoAddr4 : Addr := 11400004

/-- Modelled keccak-derived demo address for `"REF_MNO345"`. -/
def demoAddr5 : Addr := 11400005

/-- Modelled keccak-derived demo address for `"REF_PQR678"`. -/
def demoAddr6 : Addr := 11400006

/-- `_initializeDemoCodes`: the demo-code mapping seeded by the constructor. -/
def initDemoCodes : String → Addr :=
  upd (upd (upd (upd (upd (upd (fun _ => 0)
    "REF_ABC123" demoAddr1)
    "REF_DEF456" demoAddr2)
    "REF_GHI789" demoAddr3)
    "REF_JKL012" demoAddr4)
    "REF_MNO345" demoAddr5)
    "REF_PQR678" demoAddr6

/-- The constructor: validation of its arguments and the initial storage
(`maxReferralsPerUser = 100`, frontend and demo mode on, roles granted to the
backend wallet and the deployer, demo codes seeded).  `selfAddr` is the
address the contract is deployed at, and `bal` / `tokenPaused` the
pre-existing state of the token contract. -/
def initialState (selfAddr tokenAddress : Addr) (rReward fReward : Nat)
    (backendWallet : Addr) (minInterval : Nat) (deployer : Addr)
    (bal : Addr → Nat) (tokenPaused : Bool) : Except Err State :=
  if tokenAddress = 0 then .error .invalidAddress
  else if backendWallet = 0 then .error .invalidAddress
  else if rReward = 0 ∨ fReward = 0 then .error .invalidAmount
  else .ok
    { thisAddr := selfAddr
      owner := deployer
      backendRole := upd (upd (fun _ => false) backendWallet true) deployer true
      referrerReward := rReward
      refereeReward := fReward
      minReferralInterval := minInterval
      maxReferralsPerUser := 100
      frontendMode := true
      demoMode := true
      paused := false
      userReferrals := fun _ => []
      lastReferralTime := fun _ => 0
      totalReferrals := fun _ => 0
      totalRewardsEarned := fun _ => 0
      hasBeenReferred := fun _ => false
      referralCodeToAddress := fun _ => 0
      addressToReferralCode := fun _ => ""
      demoReferralCodes := initDemoCodes
      tokenBalances := bal
      tokenPaused := tokenPaused }

/-- Mutual consistency of the two user-code mappings: the empty code is never
claimed (`registerReferralCode` rejects it), every address's active code maps
back to it, and every claimed code's owner holds that code. -/
def codeMapsConsistent (s : State) : Prop :=
  s.referralCodeToAddress "" = 0 ∧
  (∀ a : Addr, a ≠ 0 → s.addressToReferralCode a ≠ "" →
    s.referralCodeToAddress (s.addressToReferralCode a) = a) ∧
  (∀ c : String, s.referralCodeToAddress c ≠ 0 →
    s.addressToReferralCode (s.referralCodeToAddress c) = c)

/-- A concrete deployed state for witnesses: the constructor's storage with
deployer `1`, backend wallet `2`, contract address `100`, rewards
`(1000, 500)`, a one-hour cooldown, and the contract funded with `75000`
tokens (the spec's §8 scenario). -/
def baseS : State :=
  { thisAddr := 100
    owner := 1
    backendRole := upd (upd (fun _ => false) 2 true) 1 true
    referrerReward := 1000
    refereeReward := 500
    minReferralInterval := 3600
    maxReferralsPerUser := 100
    frontendMode := true
    demoMode := true
    paused := false
    userReferrals := fun _ => []
    lastReferralTime := fun _ => 0
    totalReferrals := fun _ => 0
    totalRewardsEarned := fun _ => 0
    hasBeenReferred := fun _ => false
    referralCodeToAddress := fun _ => 0
    addressToReferralCode := fun _ => ""
    demoReferralCodes := initDemoCodes
    tokenBalances := fun a => if a = 100 then 75000 else 0
    tokenPaused := false }

/-- `baseS` with the contract balance drained below one reward pair. -/
def poorS : State :=
  { baseS with tokenBalances := fun a => if a = 100 then 1400 else 0 }

/-- `baseS` paused by the owner. -/
def pausedS : State :=
  { baseS with paused := true }

/-- `baseS` after address `7` has registered the code `"MYCODE"`. -/
def ownCodeS : State :=
  { baseS with referralCodeToAddress := upd (fun _ => 0) "MYCODE" 7,
               addressToReferralCode := upd (fun _ => "") 7 "MYCODE" }

/-- `baseS` with frontend mode switched off by the owner. -/
def noFrontS : State :=
  { baseS with frontendMode := false }

/-- `baseS` after address 7 has been referred. -/
def refdS : State :=
  { baseS with hasBeenReferred := upd (fun _ => false) 7 true }


/-! ## Helper lemmas -/


theorem upd_same {α β : Type} [DecidableEq α] (m : α → β) (k : α) (v : β) :
    upd m k v k = v := by simp [upd]

theorem upd_ne {α β : Type} [DecidableEq α] {a k : α} (m : α → β) (v : β) (h : a ≠ k) :
    upd m k v a = m a := by simp [upd, h]

theorem distributeRewards_ok_preserves {s s' : State} {r e : Addr}
    (h : distributeRewards s r e = .ok s') :
    s'.thisAddr = s.thisAddr ∧ s'.hasBeenReferred = s.hasBeenReferred ∧
    s'.lastReferralTime = s.lastReferralTime ∧ s'.totalReferrals = s.totalReferrals ∧
    s'.userReferrals = s.userReferrals ∧
    s'.referralCodeToAddress = s.referralCodeToAddress ∧
    s'.addressToReferralCode = s.addressToReferralCode ∧
    s'.demoMode = s.demoMode ∧ s'.demoReferralCodes = s.demoReferralCodes ∧
    s'.frontendMode = s.frontendMode ∧ s'.paused = s.paused ∧
    s'.referrerReward = s.referrerReward ∧ s'.refereeReward = s.refereeReward ∧
    s'.minReferralInterval = s.minReferralInterval ∧
    s'.maxReferralsPerUser = s.maxReferralsPerUser ∧
    s'.owner = s.owner ∧ s'.backendRole = s.backendRole := by
  unfold distributeRewards at h
  split at h
  · simp at h
  · split at h
    · split at h
      · simp at h
      · dsimp only at h
        split at h
        · simp at h
        · simp only [Except.ok.injEq] at h
          subst h
          simp
    · dsimp only at h
      split at h
      · simp at h
      · simp only [Except.ok.injEq] at h
        subst h
        simp

theorem distributeRewards_ok_spend {s s' : State} {r e : Addr}
    (h : distributeRewards s r e = .ok s') :
    (isDemoAddress s r = true →
      tokenTransfer s.tokenPaused s.tokenBalances s.thisAddr e s.refereeReward =
        .ok s'.tokenBalances ∧
      s'.totalRewardsEarned =
        upd s.totalRewardsEarned e (s.totalRewardsEarned e + s.refereeReward)) ∧
    (isDemoAddress s r = false →
      ∃ bal1,
        tokenTransfer s.tokenPaused s.tokenBalances s.thisAddr r s.referrerReward =
          .ok bal1 ∧
        tokenTransfer s.tokenPaused bal1 s.thisAddr e s.refereeReward =
          .ok s'.tokenBalances ∧
        s'.totalRewardsEarned =
          upd (upd s.totalRewardsEarned r (s.totalRewardsEarned r + s.referrerReward)) e
            (upd s.totalRewardsEarned r (s.totalRewardsEarned r + s.referrerReward) e +
              s.refereeReward)) := by
  unfold distributeRewards at h
  split at h
  · simp at h
  · split at h
    · rename_i hdemo
      split at h
      · simp at h
      · rename_i bal1 heq1
        dsimp only at h
        split at h
        · simp at h
        · rename_i bal2 heq2
          simp only [Except.ok.injEq] at h
          subst h
          refine ⟨fun ht => ?_, fun _ => ⟨bal1, heq1, by simpa using heq2, by simp⟩⟩
          rw [hdemo] at ht
          simp at ht
    · rename_i hdemo
      dsimp only at h
      split at h
      · simp at h
      · rename_i bal heq
        simp only [Except.ok.injEq] at h
        subst h
        refine ⟨fun _ => ⟨by simpa using heq, by simp⟩, fun hf => ?_⟩
        rw [hf] at hdemo
        simp at hdemo


theorem processReferralInternal_ok_inversion {s s' : State} {now : Nat} {e r : Addr}
    (h : processReferralInternal s now e r = .ok s') :
    e ≠ 0 ∧ r ≠ 0 ∧ e ≠ r ∧ s.hasBeenReferred e = false ∧
    (isDemoAddress s r = false →
      s.lastReferralTime r + s.minReferralInterval ≤ now ∧
      s.totalReferrals r < s.maxReferralsPerUser) ∧
    s'.hasBeenReferred = upd s.hasBeenReferred e true ∧
    s'.referralCodeToAddress = s.referralCodeToAddress ∧
    s'.addressToReferralCode = s.addressToReferralCode ∧
    s'.demoMode = s.demoMode ∧ s'.demoReferralCodes = s.demoReferralCodes ∧
    s'.frontendMode = s.frontendMode ∧ s'.paused = s.paused ∧
    (isDemoAddress s r = true →
      s'.lastReferralTime = s.lastReferralTime ∧
      s'.totalReferrals = s.totalReferrals ∧
      s'.totalRewardsEarned r = s.totalRewardsEarned r ∧
      s'.totalRewardsEarned e = s.totalRewardsEarned e + s.refereeReward ∧
      tokenTransfer s.tokenPaused s.tokenBalances s.thisAddr e s.refereeReward =
        .ok s'.tokenBalances) ∧
    (isDemoAddress s r = false →
      s'.lastReferralTime = upd s.lastReferralTime r now ∧
      s'.totalReferrals = upd s.totalReferrals r (s.totalReferrals r + 1) ∧
      s'.totalRewardsEarned r = s.totalRewardsEarned r + s.referrerReward ∧
      s'.totalRewardsEarned e = s.totalRewardsEarned e + s.refereeReward ∧
      ∃ bal1,
        tokenTransfer s.tokenPaused s.tokenBalances s.thisAddr r s.referrerReward =
          .ok bal1 ∧
        tokenTransfer s.tokenPaused bal1 s.thisAddr e s.refereeReward =
          .ok s'.tokenBalances) := by
  unfold processReferralInternal at h
  split at h
  · simp at h
  · split at h
    · simp at h
    · split at h
      · simp at h
      · split at h
        · simp at h
        · split at h
          · simp at h
          · rename_i h0 h1 h2 h3 h4
            push_neg at h0
            obtain ⟨he0, hr0⟩ := h0
            simp only [Bool.not_eq_true] at h2
            have hre : r ≠ e := fun hx => h1 hx.symm
            dsimp only at h
            split at h
            · rename_i hd
              have hd' : isDemoAddress s r = false := hd
              have pres := distributeRewards_ok_preserves h
              have spend := (distributeRewards_ok_spend h).2 hd
              dsimp only at pres spend
              obtain ⟨bal1, heq1, heq2, htre⟩ := spend
              refine ⟨he0, hr0, h1, h2,
                fun _ => ⟨Nat.le_of_not_lt fun hx => h3 ⟨hd', hx⟩,
                          Nat.lt_of_not_le fun hx => h4 ⟨hd', hx⟩⟩,
                ?_, ?_, ?_, ?_, ?_, ?_, ?_, ?_, ?_⟩
              · rw [pres.2.1]
              · rw [pres.2.2.2.2.2.1]
              · rw [pres.2.2.2.2.2.2.1]
              · rw [pres.2.2.2.2.2.2.2.1]
              · rw [pres.2.2.2.2.2.2.2.2.1]
              · rw [pres.2.2.2.2.2.2.2.2.2.1]
              · rw [pres.2.2.2.2.2.2.2.2.2.2.1]
              · intro ht
                rw [ht] at hd'
                simp at hd'
              · intro _
                refine ⟨by rw [pres.2.2.1], by rw [pres.2.2.2.1], ?_, ?_, bal1, heq1, heq2⟩
                · rw [htre, upd_ne _ _ hre, upd_same]
                · rw [htre, upd_same, upd_ne _ _ h1]
            · rename_i hd
              have hd' : isDemoAddress s r = true := by
                have := Bool.not_eq_false (isDemoAddress s r)
                exact Bool.not_eq_false _ |>.mp hd
              have pres := distributeRewards_ok_preserves h
              have spend := (distributeRewards_ok_spend h).1 hd'
              dsimp only at pres spend
              obtain ⟨heq, htre⟩ := spend
              refine ⟨he0, hr0, h1, h2,
                fun hf => absurd hf (by rw [hd']; simp),
                ?_, ?_, ?_, ?_, ?_, ?_, ?_, ?_, ?_⟩
              · rw [pres.2.1]
              · rw [pres.2.2.2.2.2.1]
              · rw [pres.2.2.2.2.2.2.1]
              · rw [pres.2.2.2.2.2.2.2.1]
              · rw [pres.2.2.2.2.2.2.2.2.1]
              · rw [pres.2.2.2.2.2.2.2.2.2.1]
              · rw [pres.2.2.2.2.2.2.2.2.2.2.1]
              · intro _
                refine ⟨by rw [pres.2.2.1], by rw [pres.2.2.2.1], ?_, ?_, heq⟩
                · rw [htre, upd_ne _ _ hre]
                · rw [htre, upd_same]
              · intro hf
                rw [hf] at hd'
                simp at hd'


theorem execState_ok {s s' : State} : execState (.ok s') s = s' := rfl

theorem execState_error {s : State} {e : Err} : execState (.error e) s = s := rfl

theorem processReferral_paused {s : State} {sender e r : Addr} {now : Nat}
    (hp : s.paused = true) :
    processReferral s sender e r now = .error .enforcedPause := by
  unfold processReferral
  rw [if_pos hp]

theorem processReferralByCode_paused {s : State} {sender : Addr} {code : String} {now : Nat}
    (hp : s.paused = true) :
    processReferralByCode s sender code now = .error .enforcedPause := by
  unfold processReferralByCode
  rw [if_pos hp]

theorem processReferral_unauthorized {s : State} {sender e r : Addr} {now : Nat}
    (hp : s.paused = false) (hf : s.frontendMode = false) (hb : s.backendRole sender = false) :
    processReferral s sender e r now = .error .unauthorizedBackend := by
  unfold processReferral
  rw [if_neg (by simp [hp]), if_pos ⟨hf, hb⟩]

theorem processReferral_gates {s : State} {sender e r : Addr} {now : Nat}
    (hp : s.paused = false) (ha : s.frontendMode = true ∨ s.backendRole sender = true) :
    processReferral s sender e r now = processReferralInternal s now e r := by
  unfold processReferral
  rw [if_neg (by simp [hp]), if_neg (by rcases ha with ha | ha <;> simp [ha])]

theorem processReferralByCode_gates {s : State} {sender : Addr} {code : String} {now : Nat}
    (hp : s.paused = false) (hf : s.frontendMode = true)
    (hres : getReferrerFromCodeInternal s code ≠ 0) :
    processReferralByCode s sender code now =
      processReferralInternal s now sender (getReferrerFromCodeInternal s code) := by
  unfold processReferralByCode
  rw [if_neg (by simp [hp]), if_neg (by simp [hf])]
  dsimp only
  rw [if_neg hres]

theorem processReferralByCode_badCode {s : State} {sender : Addr} {code : String} {now : Nat}
    (hp : s.paused = false) (hf : s.frontendMode = true)
    (hres : getReferrerFromCodeInternal s code = 0) :
    processReferralByCode s sender code now = .error .invalidReferralCode := by
  unfold processReferralByCode
  rw [if_neg (by simp [hp]), if_neg (by simp [hf])]
  dsimp only
  rw [if_pos hres]

theorem processReferral_ok_internal {s s' : State} {sender e r : Addr} {now : Nat}
    (h : processReferral s sender e r now = .ok s') :
    processReferralInternal s now e r = .ok s' := by
  unfold processReferral at h
  split at h
  · simp at h
  · split at h
    · simp at h
    · exact h

theorem processReferralByCode_ok_internal {s s' : State} {sender : Addr} {code : String} {now : Nat}
    (h : processReferralByCode s sender code now = .ok s') :
    processReferralInternal s now sender (getReferrerFromCodeInternal s code) = .ok s' := by
  unfold processReferralByCode at h
  split at h
  · simp at h
  · split at h
    · simp at h
    · dsimp only at h
      split at h
      · simp at h
      · exact h

theorem processReferralInternal_invalidAddress {s : State} {now : Nat} {e r : Addr}
    (h : e = 0 ∨ r = 0) :
    processReferralInternal s now e r = .error .invalidAddress := by
  unfold processReferralInternal
  rw [if_pos h]

theorem processReferralInternal_selfReferral {s : State} {now : Nat} {e r : Addr}
    (he : e ≠ 0) (hr : r ≠ 0) (h : e = r) :
    processReferralInternal s now e r = .error .selfReferralNotAllowed := by
  unfold processReferralInternal
  rw [if_neg (by simp [he, hr]), if_pos h]

theorem processReferralInternal_alreadyReferred {s : State} {now : Nat} {e r : Addr}
    (he : e ≠ 0) (hr : r ≠ 0) (hne : e ≠ r) (hb : s.hasBeenReferred e = true) :
    processReferralInternal s now e r = .error .userAlreadyReferred := by
  unfold processReferralInternal
  rw [if_neg (by simp [he, hr]), if_neg hne, if_pos hb]

theorem processReferralInternal_tooSoon {s : State} {now : Nat} {e r : Addr}
    (he : e ≠ 0) (hr : r ≠ 0) (hne : e ≠ r) (hb : s.hasBeenReferred e = false)
    (hdemo : isDemoAddress s r = false)
    (hlt : now < s.lastReferralTime r + s.minReferralInterval) :
    processReferralInternal s now e r = .error .referralTooSoon := by
  unfold processReferralInternal
  rw [if_neg (by simp [he, hr]), if_neg hne, if_neg (by simp [hb]), if_pos ⟨hdemo, hlt⟩]

theorem processReferralInternal_maxExceeded {s : State} {now : Nat} {e r : Addr}
    (he : e ≠ 0) (hr : r ≠ 0) (hne : e ≠ r) (hb : s.hasBeenReferred e = false)
    (hdemo : isDemoAddress s r = false)
    (hcool : s.lastReferralTime r + s.minReferralInterval ≤ now)
    (hmax : s.maxReferralsPerUser ≤ s.totalReferrals r) :
    processReferralInternal s now e r = .error .maxReferralsExceeded := by
  unfold processReferralInternal
  rw [if_neg (by simp [he, hr]), if_neg hne, if_neg (by simp [hb]),
    if_neg (by simp [Nat.not_lt.mpr hcool]), if_pos ⟨hdemo, hmax⟩]

theorem processReferralInternal_insufficient {s : State} {now : Nat} {e r : Addr}
    (he : e ≠ 0) (hr : r ≠ 0) (hne : e ≠ r) (hb : s.hasBeenReferred e = false)
    (hvalid : isDemoAddress s r = true ∨
      (s.lastReferralTime r + s.minReferralInterval ≤ now ∧
        s.totalReferrals r < s.maxReferralsPerUser))
    (hbal : s.tokenBalances s.thisAddr < s.referrerReward + s.refereeReward) :
    processReferralInternal s now e r = .error .insufficientTokenBalance := by
  unfold processReferralInternal
  rw [if_neg (by simp [he, hr]), if_neg hne, if_neg (by simp [hb]),
    if_neg (by rcases hvalid with hv | ⟨hv, _⟩ <;> simp [hv, Nat.not_lt.mpr]),
    if_neg (by rcases hvalid with hv | ⟨_, hv⟩ <;> simp [hv])]
  dsimp only
  split
  · unfold distributeRewards
    rw [if_pos hbal]
  · unfold distributeRewards
    rw [if_pos hbal]


theorem string_length_eq_zero {c : String} : c.length = 0 ↔ c = "" := by
  cases c with
  | mk l =>
    simp [String.length]
    constructor
    · intro h
      simp [h]
    · intro h
      have : l = ([] : List Char) := congrArg String.data h
      simp [this]

theorem registerReferralCode_ok_inversion {s s' : State} {sender : Addr} {code : String}
    (h : registerReferralCode s sender code = .ok s') :
    s.frontendMode = true ∧ code ≠ "" ∧ s.referralCodeToAddress code = 0 ∧
    s'.addressToReferralCode = upd s.addressToReferralCode sender code ∧
    s'.referralCodeToAddress =
      upd (if 0 < (s.addressToReferralCode sender).length then
            upd s.referralCodeToAddress (s.addressToReferralCode sender) 0
          else s.referralCodeToAddress) code sender ∧
    s'.hasBeenReferred = s.hasBeenReferred ∧ s'.paused = s.paused ∧
    s'.frontendMode = s.frontendMode ∧ s'.demoMode = s.demoMode ∧
    s'.demoReferralCodes = s.demoReferralCodes ∧
    s'.lastReferralTime = s.lastReferralTime ∧ s'.totalReferrals = s.totalReferrals ∧
    s'.totalRewardsEarned = s.totalRewardsEarned ∧
    s'.tokenBalances = s.tokenBalances ∧ s'.userReferrals = s.userReferrals := by
  unfold registerReferralCode at h
  split at h
  · simp at h
  · split at h
    · simp at h
    · split at h
      · simp at h
      · rename_i hf hc hclaim
        push_neg at hclaim
        dsimp only at h
        split at h
        · rename_i hold
          simp only [Except.ok.injEq] at h
          subst h
          refine ⟨by simpa using hf, fun hx => hc (by simp [hx, string_length_eq_zero]),
            hclaim, rfl, ?_, rfl, rfl, rfl, rfl, rfl, rfl, rfl, rfl, rfl, rfl⟩
          rw [if_pos hold]
        · rename_i hold
          simp only [Except.ok.injEq] at h
          subst h
          refine ⟨by simpa using hf, fun hx => hc (by simp [hx, string_length_eq_zero]),
            hclaim, rfl, ?_, rfl, rfl, rfl, rfl, rfl, rfl, rfl, rfl, rfl, rfl⟩
          rw [if_neg hold]

theorem registerReferralCode_ok_of {s : State} {sender : Addr} {code : String}
    (hf : s.frontendMode = true) (hc : code ≠ "") (hp : s.referralCodeToAddress code = 0) :
    ∃ s', registerReferralCode s sender code = .ok s' := by
  unfold registerReferralCode
  rw [if_neg (by simp [hf]), if_neg (by simpa [string_length_eq_zero] using hc),
    if_neg (by simp [hp])]
  exact ⟨_, rfl⟩

theorem registerReferralCode_err_unauthorized {s : State} {sender : Addr} {code : String}
    (hf : s.frontendMode = false) :
    registerReferralCode s sender code = .error .unauthorizedBackend := by
  unfold registerReferralCode
  rw [if_pos hf]

theorem registerReferralCode_err_empty {s : State} {sender : Addr} {code : String}
    (hf : s.frontendMode = true) (hc : code = "") :
    registerReferralCode s sender code = .error .invalidReferralCode := by
  unfold registerReferralCode
  rw [if_neg (by simp [hf]), if_pos (by simp [hc, string_length_eq_zero])]

theorem registerReferralCode_err_claimed {s : State} {sender : Addr} {code : String}
    (hf : s.frontendMode = true) (hc : code ≠ "") (hp : s.referralCodeToAddress code ≠ 0) :
    registerReferralCode s sender code = .error .referralCodeAlreadyExists := by
  unfold registerReferralCode
  rw [if_neg (by simp [hf]), if_neg (by simpa [string_length_eq_zero] using hc), if_pos hp]

theorem getReferrerFromCode_zero_inversion {s : State} {c : String}
    (h : getReferrerFromCodeInternal s c = 0) :
    s.referralCodeToAddress c = 0 ∧ (s.demoMode = true → s.demoReferralCodes c = 0) := by
  unfold getReferrerFromCodeInternal at h
  dsimp only at h
  split at h
  · rename_i hc
    exact absurd h hc
  · rename_i hc
    push_neg at hc
    split at h
    · exact ⟨hc, fun _ => h⟩
    · rename_i hd
      exact ⟨hc, fun hx => absurd hx hd⟩

theorem getReferrerFromCode_user {s : State} {c : String}
    (h : s.referralCodeToAddress c ≠ 0) :
    getReferrerFromCodeInternal s c = s.referralCodeToAddress c := by
  unfold getReferrerFromCodeInternal
  dsimp only
  rw [if_pos h]

theorem getReferrerFromCode_fallback {s : State} {c : String}
    (h : s.referralCodeToAddress c = 0) :
    getReferrerFromCodeInternal s c = if s.demoMode = true then s.demoReferralCodes c else 0 := by
  unfold getReferrerFromCodeInternal
  dsimp only
  rw [if_neg (by simp [h])]


theorem addDemoCode_ok_inversion {s s' : State} {sender : Addr} {code : String} {r : Addr}
    (h : addDemoCode s sender code r = .ok s') :
    sender = s.owner ∧ r ≠ 0 ∧
    s' = { s with demoReferralCodes := upd s.demoReferralCodes code r } := by
  unfold addDemoCode at h
  split at h
  · simp at h
  · split at h
    · simp at h
    · rename_i ho hr
      push_neg at ho
      simp only [Except.ok.injEq] at h
      exact ⟨ho, hr, h.symm⟩

theorem addDemoCode_ok_of {s : State} {code : String} {r : Addr} (hr : r ≠ 0) :
    addDemoCode s s.owner code r =
      .ok { s with demoReferralCodes := upd s.demoReferralCodes code r } := by
  unfold addDemoCode
  rw [if_neg (by simp), if_neg hr]

theorem setDemoMode_ok_inversion {s s' : State} {sender : Addr} {b : Bool}
    (h : setDemoMode s sender b = .ok s') :
    sender = s.owner ∧ s' = { s with demoMode := b } := by
  unfold setDemoMode at h
  split at h
  · simp at h
  · rename_i ho
    push_neg at ho
    simp only [Except.ok.injEq] at h
    exact ⟨ho, h.symm⟩

theorem setDemoMode_ok_of {s : State} {b : Bool} :
    setDemoMode s s.owner b = .ok { s with demoMode := b } := by
  unfold setDemoMode
  rw [if_neg (by simp)]

theorem setFrontendMode_hasBeenReferred {s s' : State} {sender : Addr} {b : Bool}
    (h : setFrontendMode s sender b = .ok s') :
    s'.hasBeenReferred = s.hasBeenReferred := by
  unfold setFrontendMode at h
  split at h
  · simp at h
  · simp only [Except.ok.injEq] at h
    subst h
    rfl

theorem updateRewardAmounts_hasBeenReferred {s s' : State} {sender : Addr} {r f : Nat}
    (h : updateRewardAmounts s sender r f = .ok s') :
    s'.hasBeenReferred = s.hasBeenReferred := by
  unfold updateRewardAmounts at h
  split at h
  · simp at h
  · split at h
    · simp at h
    · simp only [Except.ok.injEq] at h
      subst h
      rfl

theorem updateMinReferralInterval_hasBeenReferred {s s' : State} {sender : Addr} {i : Nat}
    (h : updateMinReferralInterval s sender i = .ok s') :
    s'.hasBeenReferred = s.hasBeenReferred := by
  unfold updateMinReferralInterval at h
  split at h
  · simp at h
  · simp only [Except.ok.injEq] at h
    subst h
    rfl

theorem updateMaxReferralsPerUser_hasBeenReferred {s s' : State} {sender : Addr} {m : Nat}
    (h : updateMaxReferralsPerUser s sender m = .ok s') :
    s'.hasBeenReferred = s.hasBeenReferred := by
  unfold updateMaxReferralsPerUser at h
  split at h
  · simp at h
  · split at h
    · simp at h
    · simp only [Except.ok.injEq] at h
      subst h
      rfl

theorem addBackendWallet_hasBeenReferred {s s' : State} {sender w : Addr}
    (h : addBackendWallet s sender w = .ok s') :
    s'.hasBeenReferred = s.hasBeenReferred := by
  unfold addBackendWallet at h
  split at h
  · simp at h
  · split at h
    · simp at h
    · simp only [Except.ok.injEq] at h
      subst h
      rfl

theorem removeBackendWallet_hasBeenReferred {s s' : State} {sender w : Addr}
    (h : removeBackendWallet s sender w = .ok s') :
    s'.hasBeenReferred = s.hasBeenReferred := by
  unfold removeBackendWallet at h
  split at h
  · simp at h
  · simp only [Except.ok.injEq] at h
    subst h
    rfl

theorem pause_hasBeenReferred {s s' : State} {sender : Addr}
    (h : pause s sender = .ok s') :
    s'.hasBeenReferred = s.hasBeenReferred := by
  unfold pause at h
  split at h
  · simp at h
  · split at h
    · simp at h
    · simp only [Except.ok.injEq] at h
      subst h
      rfl

theorem unpause_hasBeenReferred {s s' : State} {sender : Addr}
    (h : unpause s sender = .ok s') :
    s'.hasBeenReferred = s.hasBeenReferred := by
  unfold unpause at h
  split at h
  · simp at h
  · split at h
    · simp at h
    · simp only [Except.ok.injEq] at h
      subst h
      rfl

theorem emergencyWithdraw_hasBeenReferred {s s' : State} {sender : Addr} {amount : Nat}
    (h : emergencyWithdraw s sender amount = .ok s') :
    s'.hasBeenReferred = s.hasBeenReferred := by
  unfold emergencyWithdraw at h
  split at h
  · simp at h
  · split at h
    · simp at h
    · simp only [Except.ok.injEq] at h
      subst h
      rfl



/-! ## Claim theorems -/


/-- C1: if a `processReferral` or `processReferralByCode` call has passed the
address, self-referral, already-referred, cooldown and max-count validations
(the latter two vacuous for a demo referrer) but the contract's token balance
is below `referrerReward + refereeReward` — the full sum, even when the
referrer is a demo address — the call fails with `InsufficientTokenBalance`
and `getUserStats` of every address is unchanged. -/
theorem referral_insufficientBalance_reverts_cleanly (s : State) (now : Nat)
    (hbal : s.tokenBalances s.thisAddr < s.referrerReward + s.refereeReward) :
    (∀ sender refereeA referrerA,
      s.paused = false → (s.frontendMode = true ∨ s.backendRole sender = true) →
      refereeA ≠ 0 → referrerA ≠ 0 → refereeA ≠ referrerA →
      s.hasBeenReferred refereeA = false →
      (isDemoAddress s referrerA = true ∨
        (s.lastReferralTime referrerA + s.minReferralInterval ≤ now ∧
          s.totalReferrals referrerA < s.maxReferralsPerUser)) →
      processReferral s sender refereeA referrerA now = .error .insufficientTokenBalance ∧
      ∀ a, getUserStats (execState (processReferral s sender refereeA referrerA now) s) a =
        getUserStats s a) ∧
    (∀ sender code,
      s.paused = false → s.frontendMode = true →
      getReferrerFromCodeInternal s code ≠ 0 →
      sender ≠ 0 → sender ≠ getReferrerFromCodeInternal s code →
      s.hasBeenReferred sender = false →
      (isDemoAddress s (getReferrerFromCodeInternal s code) = true ∨
        (s.lastReferralTime (getReferrerFromCodeInternal s code) + s.minReferralInterval ≤ now ∧
          s.totalReferrals (getReferrerFromCodeInternal s code) < s.maxReferralsPerUser)) →
      processReferralByCode s sender code now = .error .insufficientTokenBalance ∧
      ∀ a, getUserStats (execState (processReferralByCode s sender code now) s) a =
        getUserStats s a) := by
  constructor
  · intro sender e r hp ha he hr hne hb hv
    have hcall : processReferral s sender e r now = .error .insufficientTokenBalance := by
      rw [processReferral_gates hp ha]
      exact processReferralInternal_insufficient he hr hne hb hv hbal
    exact ⟨hcall, fun a => by rw [hcall, execState_error]⟩
  · intro sender code hp hf hres hs hne hb hv
    have hcall : processReferralByCode s sender code now = .error .insufficientTokenBalance := by
      rw [processReferralByCode_gates hp hf hres]
      exact processReferralInternal_insufficient hs hres hne hb hv hbal
    exact ⟨hcall, fun a => by rw [hcall, execState_error]⟩

/-- Witness for C1 on a concrete drained state: balance 1400 < 1500, demo
referrer, all validations passing. -/
theorem referral_insufficientBalance_reverts_cleanly_witness :
    poorS.tokenBalances poorS.thisAddr < poorS.referrerReward + poorS.refereeReward ∧
    processReferral poorS 2 7 demoAddr1 99999 = .error .insufficientTokenBalance ∧
    getUserStats (execState (processReferral poorS 2 7 demoAddr1 99999) poorS) 7 =
      getUserStats poorS 7 := by
  have h := (referral_insufficientBalance_reverts_cleanly poorS 99999 (by decide)).1
    2 7 demoAddr1 rfl (Or.inr rfl) (by decide) (by decide) (by decide) rfl
    (Or.inl (by decide))
  exact ⟨by decide, h.1, h.2 7⟩

/-- C3: both entry points apply the validations in order — zero address, self
referral, referee already referred, then (only for a non-demo referrer) the
cooldown, then (only for a non-demo referrer) the max-count — and the first
violated check's error is reported. -/
theorem validation_order_first_failure_wins (s : State) (now : Nat) :
    (∀ sender refereeA referrerA,
      s.paused = false → (s.frontendMode = true ∨ s.backendRole sender = true) →
      ((refereeA = 0 ∨ referrerA = 0) →
        processReferral s sender refereeA referrerA now = .error .invalidAddress) ∧
      (refereeA ≠ 0 → referrerA ≠ 0 → refereeA = referrerA →
        processReferral s sender refereeA referrerA now = .error .selfReferralNotAllowed) ∧
      (refereeA ≠ 0 → referrerA ≠ 0 → refereeA ≠ referrerA →
        s.hasBeenReferred refereeA = true →
        processReferral s sender refereeA referrerA now = .error .userAlreadyReferred) ∧
      (refereeA ≠ 0 → referrerA ≠ 0 → refereeA ≠ referrerA →
        s.hasBeenReferred refereeA = false → isDemoAddress s referrerA = false →
        now < s.lastReferralTime referrerA + s.minReferralInterval →
        processReferral s sender refereeA referrerA now = .error .referralTooSoon) ∧
      (refereeA ≠ 0 → referrerA ≠ 0 → refereeA ≠ referrerA →
        s.hasBeenReferred refereeA = false → isDemoAddress s referrerA = false →
        s.lastReferralTime referrerA + s.minReferralInterval ≤ now →
        s.maxReferralsPerUser ≤ s.totalReferrals referrerA →
        processReferral s sender refereeA referrerA now = .error .maxReferralsExceeded)) ∧
    (∀ sender code, s.paused = false → s.frontendMode = true →
      getReferrerFromCodeInternal s code ≠ 0 →
      ((sender = 0 →
        processReferralByCode s sender code now = .error .invalidAddress) ∧
      (sender ≠ 0 → sender = getReferrerFromCodeInternal s code →
        processReferralByCode s sender code now = .error .selfReferralNotAllowed) ∧
      (sender ≠ 0 → sender ≠ getReferrerFromCodeInternal s code →
        s.hasBeenReferred sender = true →
        processReferralByCode s sender code now = .error .userAlreadyReferred) ∧
      (sender ≠ 0 → sender ≠ getReferrerFromCodeInternal s code →
        s.hasBeenReferred sender = false →
        isDemoAddress s (getReferrerFromCodeInternal s code) = false →
        now < s.lastReferralTime (getReferrerFromCodeInternal s code) + s.minReferralInterval →
        processReferralByCode s sender code now = .error .referralTooSoon) ∧
      (sender ≠ 0 → sender ≠ getReferrerFromCodeInternal s code →
        s.hasBeenReferred sender = false →
        isDemoAddress s (getReferrerFromCodeInternal s code) = false →
        s.lastReferralTime (getReferrerFromCodeInternal s code) + s.minReferralInterval ≤ now →
        s.maxReferralsPerUser ≤ s.totalReferrals (getReferrerFromCodeInternal s code) →
        processReferralByCode s sender code now = .error .maxReferralsExceeded))) := by
  constructor
  · intro sender e r hp ha
    rw [processReferral_gates hp ha]
    exact ⟨fun h => processReferralInternal_invalidAddress h,
      fun he hr h => processReferralInternal_selfReferral he hr h,
      fun he hr hne hb => processReferralInternal_alreadyReferred he hr hne hb,
      fun he hr hne hb hd hlt => processReferralInternal_tooSoon he hr hne hb hd hlt,
      fun he hr hne hb hd hc hm => processReferralInternal_maxExceeded he hr hne hb hd hc hm⟩
  · intro sender code hp hf hres
    rw [processReferralByCode_gates hp hf hres]
    exact ⟨fun h => processReferralInternal_invalidAddress (Or.inl h),
      fun he h => processReferralInternal_selfReferral he hres h,
      fun he hne hb => processReferralInternal_alreadyReferred he hres hne hb,
      fun he hne hb hd hlt => processReferralInternal_tooSoon he hres hne hb hd hlt,
      fun he hne hb hd hc hm => processReferralInternal_maxExceeded he hres hne hb hd hc hm⟩

/-- Witness for C3 on concrete states: a zero referee reports
`InvalidAddress`, a self referral reports `SelfReferralNotAllowed`, and a
too-soon real referral reports `ReferralTooSoon`. -/
theorem validation_order_first_failure_wins_witness :
    processReferral baseS 2 0 5 10 = .error .invalidAddress ∧
    processReferral baseS 2 5 5 10 = .error .selfReferralNotAllowed ∧
    processReferral baseS 2 7 5 10 = .error .referralTooSoon := by
  have h := (validation_order_first_failure_wins baseS 10).1 2
  exact ⟨(h 0 5 rfl (Or.inl rfl)).1 (Or.inl rfl),
    (h 5 5 rfl (Or.inl rfl)).2.1 (by decide) (by decide) rfl,
    (h 7 5 rfl (Or.inl rfl)).2.2.2.1 (by decide) (by decide) (by decide) rfl (by decide)
      (by decide)⟩


/-- C2: `hasBeenReferred` never falls back from true under any entry point
(so it flips false→true at most once); a successful referral sets it for the
referee; and once it is set, no later `processReferral` or
`processReferralByCode` naming that address as referee can succeed — such a
call that reaches the referee check fails with `UserAlreadyReferred`. -/
theorem hasBeenReferred_monotone_once :
    (∀ (op : Op) (s : State) (a : Addr), s.hasBeenReferred a = true →
      (execState (exec op s) s).hasBeenReferred a = true) ∧
    (∀ (s s' : State) (sender refereeA referrerA : Addr) (now : Nat),
      processReferral s sender refereeA referrerA now = .ok s' →
      s'.hasBeenReferred refereeA = true) ∧
    (∀ (s s' : State) (sender : Addr) (code : String) (now : Nat),
      processReferralByCode s sender code now = .ok s' →
      s'.hasBeenReferred sender = true) ∧
    (∀ (s : State) (a : Addr), s.hasBeenReferred a = true →
      (∀ (sender referrerA : Addr) (now : Nat) (s' : State),
        processReferral s sender a referrerA now ≠ .ok s') ∧
      (∀ (sender referrerA : Addr) (now : Nat),
        s.paused = false → (s.frontendMode = true ∨ s.backendRole sender = true) →
        a ≠ 0 → referrerA ≠ 0 → a ≠ referrerA →
        processReferral s sender a referrerA now = .error .userAlreadyReferred) ∧
      (∀ (code : String) (now : Nat) (s' : State),
        processReferralByCode s a code now ≠ .ok s') ∧
      (∀ (code : String) (now : Nat),
        s.paused = false → s.frontendMode = true →
        getReferrerFromCodeInternal s code ≠ 0 → a ≠ 0 →
        a ≠ getReferrerFromCodeInternal s code →
        processReferralByCode s a code now = .error .userAlreadyReferred)) := by
  have hinternal_ok : ∀ (s s' : State) (now : Nat) (e r a : Addr),
      processReferralInternal s now e r = .ok s' → s.hasBeenReferred a = true →
      s'.hasBeenReferred a = true := by
    intro s s' now e r a hok ha
    have hinv := (processReferralInternal_ok_inversion hok).2.2.2.2.2.1
    rw [hinv]
    by_cases hx : a = e <;> simp [upd, hx, ha]
  have hinternal_ne : ∀ (s s' : State) (now : Nat) (e r : Addr),
      s.hasBeenReferred e = true → processReferralInternal s now e r ≠ .ok s' := by
    intro s s' now e r ha hok
    have := (processReferralInternal_ok_inversion hok).2.2.2.1
    rw [ha] at this
    exact Bool.true_eq_false.mp this
  refine ⟨?_, ?_, ?_, ?_⟩
  · intro op s a ha
    cases op with
    | processReferral sender e r now =>
      simp only [exec]
      cases hres : processReferral s sender e r now with
      | error err => rw [execState_error]; exact ha
      | ok s' =>
        rw [execState_ok]
        exact hinternal_ok s s' now e r a (processReferral_ok_internal hres) ha
    | processReferralByCode sender code now =>
      simp only [exec]
      cases hres : processReferralByCode s sender code now with
      | error err => rw [execState_error]; exact ha
      | ok s' =>
        rw [execState_ok]
        exact hinternal_ok s s' now sender (getReferrerFromCodeInternal s code) a
          (processReferralByCode_ok_internal hres) ha
    | registerReferralCode sender code =>
      simp only [exec]
      cases hres : registerReferralCode s sender code with
      | error err => rw [execState_error]; exact ha
      | ok s' =>
        rw [execState_ok, (registerReferralCode_ok_inversion hres).2.2.2.2.2.1]
        exact ha
    | addDemoCode sender code r =>
      simp only [exec]
      cases hres : addDemoCode s sender code r with
      | error err => rw [execState_error]; exact ha
      | ok s' =>
        rw [execState_ok, (addDemoCode_ok_inversion hres).2.2]
        exact ha
    | setDemoMode sender b =>
      simp only [exec]
      cases hres : setDemoMode s sender b with
      | error err => rw [execState_error]; exact ha
      | ok s' =>
        rw [execState_ok, (setDemoMode_ok_inversion hres).2]
        exact ha
    | setFrontendMode sender b =>
      simp only [exec]
      cases hres : setFrontendMode s sender b with
      | error err => rw [execState_error]; exact ha
      | ok s' => rw [execState_ok, setFrontendMode_hasBeenReferred hres]; exact ha
    | updateRewardAmounts sender r f =>
      simp only [exec]
      cases hres : updateRewardAmounts s sender r f with
      | error err => rw [execState_error]; exact ha
      | ok s' => rw [execState_ok, updateRewardAmounts_hasBeenReferred hres]; exact ha
    | updateMinReferralInterval sender i =>
      simp only [exec]
      cases hres : updateMinReferralInterval s sender i with
      | error err => rw [execState_error]; exact ha
      | ok s' => rw [execState_ok, updateMinReferralInterval_hasBeenReferred hres]; exact ha
    | updateMaxReferralsPerUser sender m =>
      simp only [exec]
      cases hres : updateMaxReferralsPerUser s sender m with
      | error err => rw [execState_error]; exact ha
      | ok s' => rw [execState_ok, updateMaxReferralsPerUser_hasBeenReferred hres]; exact ha
    | addBackendWallet sender w =>
      simp only [exec]
      cases hres : addBackendWallet s sender w with
      | error err => rw [execState_error]; exact ha
      | ok s' => rw [execState_ok, addBackendWallet_hasBeenReferred hres]; exact ha
    | removeBackendWallet sender w =>
      simp only [exec]
      cases hres : removeBackendWallet s sender w with
      | error err => rw [execState_error]; exact ha
      | ok s' => rw [execState_ok, removeBackendWallet_hasBeenReferred hres]; exact ha
    | pause sender =>
      simp only [exec]
      cases hres : pause s sender with
      | error err => rw [execState_error]; exact ha
      | ok s' => rw [execState_ok, pause_hasBeenReferred hres]; exact ha
    | unpause sender =>
      simp only [exec]
      cases hres : unpause s sender with
      | error err => rw [execState_error]; exact ha
      | ok s' => rw [execState_ok, unpause_hasBeenReferred hres]; exact ha
    | emergencyWithdraw sender amount =>
      simp only [exec]
      cases hres : emergencyWithdraw s sender amount with
      | error err => rw [execState_error]; exact ha
      | ok s' => rw [execState_ok, emergencyWithdraw_hasBeenReferred hres]; exact ha
  · intro s s' sender e r now hres
    have hinv := (processReferralInternal_ok_inversion (processReferral_ok_internal hres)).2.2.2.2.2.1
    rw [hinv, upd_same]
  · intro s s' sender code now hres
    have hinv := (processReferralInternal_ok_inversion
      (processReferralByCode_ok_internal hres)).2.2.2.2.2.1
    rw [hinv, upd_same]
  · intro s a ha
    refine ⟨?_, ?_, ?_, ?_⟩
    · intro sender r now s' hok
      exact hinternal_ne s s' now a r ha (processReferral_ok_internal hok)
    · intro sender r now hp hauth h0 hr hne
      rw [processReferral_gates hp hauth]
      exact processReferralInternal_alreadyReferred h0 hr hne ha
    · intro code now s' hok
      exact hinternal_ne s s' now a (getReferrerFromCodeInternal s code) ha
        (processReferralByCode_ok_internal hok)
    · intro code now hp hf hres h0 hne
      rw [processReferralByCode_gates hp hf hres]
      exact processReferralInternal_alreadyReferred h0 hres hne ha

/-- Witness for C2: a concrete state with address 7 already referred — a
replayed direct referral fails with `UserAlreadyReferred`. -/
theorem hasBeenReferred_monotone_once_witness :
    refdS.hasBeenReferred 7 = true ∧
    processReferral refdS 2 7 5 99999 = .error .userAlreadyReferred :=
  ⟨rfl, ((hasBeenReferred_monotone_once.2.2.2 refdS 7 rfl).2.1 2 5 99999 rfl
    (Or.inl rfl) (by decide) (by decide) (by decide))⟩



theorem tokenTransfer_error_inversion {tokenPaused : Bool} {bal : Addr → Nat}
    {source dest : Addr} {amount : Nat} {err : Err}
    (h : tokenTransfer tokenPaused bal source dest amount = .error err) :
    err = .erc20InvalidSender ∨ err = .erc20InvalidReceiver ∨
      err = .enforcedPause ∨ err = .erc20InsufficientBalance := by
  unfold tokenTransfer at h
  split at h
  · simp only [Except.error.injEq] at h
    exact Or.inl h.symm
  · split at h
    · simp only [Except.error.injEq] at h
      exact Or.inr (Or.inl h.symm)
    · split at h
      · simp only [Except.error.injEq] at h
        exact Or.inr (Or.inr (Or.inl h.symm))
      · split at h
        · simp only [Except.error.injEq] at h
          exact Or.inr (Or.inr (Or.inr h.symm))
        · simp at h

theorem distributeRewards_error_inversion {s : State} {r e : Addr} {err : Err}
    (h : distributeRewards s r e = .error err) :
    err = .insufficientTokenBalance ∨ err = .erc20InvalidSender ∨
      err = .erc20InvalidReceiver ∨ err = .enforcedPause ∨
      err = .erc20InsufficientBalance := by
  unfold distributeRewards at h
  split at h
  · simp only [Except.error.injEq] at h
    exact Or.inl h.symm
  · split at h
    · split at h
      · rename_i heq
        simp only [Except.error.injEq] at h
        subst h
        exact Or.inr (tokenTransfer_error_inversion heq)
      · dsimp only at h
        split at h
        · rename_i heq
          simp only [Except.error.injEq] at h
          subst h
          exact Or.inr (tokenTransfer_error_inversion heq)
        · simp at h
    · dsimp only at h
      split at h
      · rename_i heq
        simp only [Except.error.injEq] at h
        subst h
        exact Or.inr (tokenTransfer_error_inversion heq)
      · simp at h

theorem demo_exempt_from_rate_limits {t : State} {now : Nat} {e r : Addr}
    (ht : isDemoAddress t r = true) :
    processReferralInternal t now e r ≠ .error .referralTooSoon ∧
    processReferralInternal t now e r ≠ .error .maxReferralsExceeded := by
  constructor <;> intro heq <;> unfold processReferralInternal at heq <;> split at heq <;>
    try simp at heq
  · rename_i hc
    split at heq
    · simp at heq
    · split at heq
      · simp at heq
      · split at heq
        · rename_i hcond
          rw [ht] at hcond
          simp at hcond
        · split at heq
          · simp at heq
          · rcases distributeRewards_error_inversion heq with h | h | h <;> simp at h
  · rename_i hc
    split at heq
    · simp at heq
    · split at heq
      · simp at heq
      · split at heq
        · simp at heq
        · split at heq
          · rename_i hcond
            rw [ht] at hcond
            simp at hcond
          · rcases distributeRewards_error_inversion heq with h | h | h <;> simp at h


/-- C4: a referral that succeeds with a demo referrer skips the rate-limit
checks (they can never be the reported error for a demo referrer), transfers
only the referee reward, and leaves the demo referrer's `lastReferralTime`,
`totalReferrals` and `totalRewardsEarned` unchanged; a successful referral
with a real referrer additionally pays `referrerReward` to the referrer and
updates its counters and `totalRewardsEarned`. -/
theorem demo_vs_real_referrer_rewards :
    (∀ (s s' : State) (sender refereeA referrerA : Addr) (now : Nat),
      processReferral s sender refereeA referrerA now = .ok s' →
      (isDemoAddress s referrerA = true →
        tokenTransfer s.tokenPaused s.tokenBalances s.thisAddr refereeA
          s.refereeReward = .ok s'.tokenBalances ∧
        s'.lastReferralTime referrerA = s.lastReferralTime referrerA ∧
        s'.totalReferrals referrerA = s.totalReferrals referrerA ∧
        s'.totalRewardsEarned referrerA = s.totalRewardsEarned referrerA ∧
        s'.totalRewardsEarned refereeA = s.totalRewardsEarned refereeA + s.refereeReward) ∧
      (isDemoAddress s referrerA = false →
        (∃ bal1,
          tokenTransfer s.tokenPaused s.tokenBalances s.thisAddr referrerA
            s.referrerReward = .ok bal1 ∧
          tokenTransfer s.tokenPaused bal1 s.thisAddr refereeA s.refereeReward =
            .ok s'.tokenBalances) ∧
        s'.lastReferralTime referrerA = now ∧
        s'.totalReferrals referrerA = s.totalReferrals referrerA + 1 ∧
        s'.totalRewardsEarned referrerA = s.totalRewardsEarned referrerA + s.referrerReward ∧
        s'.totalRewardsEarned refereeA = s.totalRewardsEarned refereeA + s.refereeReward)) ∧
    (∀ (t : State) (now : Nat) (e r : Addr), isDemoAddress t r = true →
      processReferralInternal t now e r ≠ .error .referralTooSoon ∧
      processReferralInternal t now e r ≠ .error .maxReferralsExceeded) := by
  constructor
  · intro s s' sender e r now hok
    have hinv := processReferralInternal_ok_inversion (processReferral_ok_internal hok)
    constructor
    · intro hd
      obtain ⟨hlrt, htr, htre_r, htre_e, hbal⟩ := hinv.2.2.2.2.2.2.2.2.2.2.2.2.1 hd
      exact ⟨hbal, by rw [hlrt], by rw [htr], htre_r, htre_e⟩
    · intro hd
      obtain ⟨hlrt, htr, htre_r, htre_e, bal1, h1, h2⟩ :=
        hinv.2.2.2.2.2.2.2.2.2.2.2.2.2 hd
      exact ⟨⟨bal1, h1, h2⟩, by rw [hlrt, upd_same], by rw [htr, upd_same], htre_r, htre_e⟩
  · intro t now e r ht
    exact demo_exempt_from_rate_limits ht

/-- Witness for C4 on a concrete successful real-referrer call: referrer 5
gains a referral count, `lastReferralTime` and the referrer reward; referee 7
gains the referee reward. -/
theorem demo_vs_real_referrer_rewards_witness :
    (execState (processReferral baseS 2 7 5 99999) baseS).totalReferrals 5 = 1 ∧
    (execState (processReferral baseS 2 7 5 99999) baseS).lastReferralTime 5 = 99999 ∧
    (execState (processReferral baseS 2 7 5 99999) baseS).totalRewardsEarned 5 = 1000 ∧
    (execState (processReferral baseS 2 7 5 99999) baseS).totalRewardsEarned 7 = 500 := by
  have h := (demo_vs_real_referrer_rewards.1 baseS
    (execState (processReferral baseS 2 7 5 99999) baseS) 2 7 5 99999 rfl).2 (by decide)
  refine ⟨?_, ?_, ?_, ?_⟩
  · rw [h.2.2.1]
    rfl
  · rw [h.2.1]
  · rw [h.2.2.2.1]
    rfl
  · rw [h.2.2.2.2]
    rfl



/-- C5 counterexample: in frontend mode a caller (5) that holds no backend
role and is not the referee (6) is accepted — the claim's "only when the
caller is the referee" restriction does not exist in the code. -/
theorem processReferral_frontend_nonReferee_accepted :
    baseS.frontendMode = true ∧ baseS.backendRole 5 = false ∧ (5 : Addr) ≠ 6 ∧
    ∃ s', processReferral baseS 5 6 7 99999 = .ok s' :=
  ⟨rfl, rfl, by decide, execState (processReferral baseS 5 6 7 99999) baseS, rfl⟩

/-- C5 amended: `processReferral` is accepted exactly when the caller holds
the backend role or frontend mode is enabled — the caller need not be the
referee — and a caller with neither fails with `UnauthorizedBackend` before
any state change. -/
theorem processReferral_authorization (s : State) (sender refereeA referrerA : Addr)
    (now : Nat) (hp : s.paused = false) :
    ((s.frontendMode = true ∨ s.backendRole sender = true) →
      processReferral s sender refereeA referrerA now =
        processReferralInternal s now refereeA referrerA) ∧
    (s.frontendMode = false → s.backendRole sender = false →
      processReferral s sender refereeA referrerA now = .error .unauthorizedBackend ∧
      ∀ a, getUserStats (execState (processReferral s sender refereeA referrerA now) s) a =
        getUserStats s a) := by
  refine ⟨fun ha => processReferral_gates hp ha, fun hf hb => ?_⟩
  have hcall := @processReferral_unauthorized s sender refereeA referrerA now hp hf hb
  exact ⟨hcall, fun a => by rw [hcall, execState_error]⟩

/-- Witness for the amended C5: with frontend mode off, non-backend caller 5
is rejected with `UnauthorizedBackend`, while backend wallet 2's call
proceeds to the internal processing. -/
theorem processReferral_authorization_witness :
    processReferral noFrontS 5 6 7 99999 = .error .unauthorizedBackend ∧
    processReferral noFrontS 2 6 7 99999 = processReferralInternal noFrontS 99999 6 7 :=
  ⟨((processReferral_authorization noFrontS 5 6 7 99999 rfl).2 rfl rfl).1,
    (processReferral_authorization noFrontS 2 6 7 99999 rfl).1 (Or.inr rfl)⟩

/-- C6 counterexample: with frontend mode on, address 7 already holding the
non-empty code "MYCODE" (claimed by nobody else), re-registering that same
code fails with `ReferralCodeAlreadyExists`, where the claim requires
success. -/
theorem registerReferralCode_own_code_rejected :
    ownCodeS.frontendMode = true ∧ ownCodeS.referralCodeToAddress "MYCODE" = 7 ∧
    ownCodeS.addressToReferralCode 7 = "MYCODE" ∧ ("MYCODE" : String) ≠ "" ∧
    registerReferralCode ownCodeS 7 "MYCODE" = .error .referralCodeAlreadyExists :=
  ⟨rfl, rfl, rfl, by decide, rfl⟩

/-- C6 amended: `registerReferralCode(code)` succeeds exactly when frontend
mode is enabled, the code is non-empty, and the code is unclaimed by anyone —
including the caller, so re-registering one's own current code fails.  It
fails with `UnauthorizedBackend` whenever frontend mode is disabled, and with
`ReferralCodeAlreadyExists` when the non-empty code is claimed by anyone. -/
theorem registerReferralCode_conditions (s : State) (sender : Addr) (code : String) :
    ((∃ s', registerReferralCode s sender code = .ok s') ↔
      (s.frontendMode = true ∧ code ≠ "" ∧ s.referralCodeToAddress code = 0)) ∧
    (s.frontendMode = false →
      registerReferralCode s sender code = .error .unauthorizedBackend) ∧
    (s.frontendMode = true → code ≠ "" → s.referralCodeToAddress code ≠ 0 →
      registerReferralCode s sender code = .error .referralCodeAlreadyExists) := by
  refine ⟨⟨?_, ?_⟩, ?_, ?_⟩
  · rintro ⟨s', hs'⟩
    have h := registerReferralCode_ok_inversion hs'
    exact ⟨h.1, h.2.1, h.2.2.1⟩
  · rintro ⟨hf, hc, hp⟩
    exact registerReferralCode_ok_of hf hc hp
  · exact registerReferralCode_err_unauthorized
  · exact registerReferralCode_err_claimed

/-- Witness for the amended C6: a fresh code registers, frontend-off is
unauthorized, and a code claimed by 7 is rejected for caller 8. -/
theorem registerReferralCode_conditions_witness :
    (∃ s', registerReferralCode baseS 7 "AAA" = .ok s') ∧
    registerReferralCode noFrontS 7 "AAA" = .error .unauthorizedBackend ∧
    registerReferralCode ownCodeS 8 "MYCODE" = .error .referralCodeAlreadyExists :=
  ⟨(registerReferralCode_conditions baseS 7 "AAA").1.mpr ⟨rfl, by decide, rfl⟩,
    (registerReferralCode_conditions noFrontS 7 "AAA").2.1 rfl,
    (registerReferralCode_conditions ownCodeS 8 "MYCODE").2.2 rfl (by decide) (by decide)⟩



theorem resolve_zero_of (s : State) (c : String)
    (hpool : s.referralCodeToAddress c = 0)
    (hdemo : s.demoMode = true → s.demoReferralCodes c = 0) :
    getReferrerFromCodeInternal s c = 0 := by
  rw [getReferrerFromCode_fallback hpool]
  by_cases hdm : s.demoMode = true
  · rw [if_pos hdm]
    exact hdemo hdm
  · rw [if_neg hdm]

/-- C7: for distinct non-empty codes C and D that currently resolve to no
referrer at all, after A successfully registers C, `getReferrerFromCode(C)`
returns A; after A then successfully registers D, C resolves to the zero
value while D resolves to A — the old code is released as part of
registering the new one. -/
theorem register_then_reregister_code_resolution
    (s s1 s2 : State) (A : Addr) (C D : String) (hCD : C ≠ D)
    (hC : getReferrerFromCode s C = 0) (hD : getReferrerFromCode s D = 0)
    (h1 : registerReferralCode s A C = .ok s1)
    (h2 : registerReferralCode s1 A D = .ok s2) :
    getReferrerFromCode s1 C = A ∧ getReferrerFromCode s2 C = 0 ∧
    getReferrerFromCode s2 D = A := by
  have i1 := registerReferralCode_ok_inversion h1
  have i2 := registerReferralCode_ok_inversion h2
  have hdemoC := (getReferrerFromCode_zero_inversion hC).2
  have hdemoD := (getReferrerFromCode_zero_inversion hD).2
  have hdm1 : s1.demoMode = s.demoMode := i1.2.2.2.2.2.2.2.2.1
  have hdc1 : s1.demoReferralCodes = s.demoReferralCodes := i1.2.2.2.2.2.2.2.2.2.1
  have hdm2 : s2.demoMode = s.demoMode := by rw [i2.2.2.2.2.2.2.2.2.1, hdm1]
  have hdc2 : s2.demoReferralCodes = s.demoReferralCodes := by
    rw [i2.2.2.2.2.2.2.2.2.2.1, hdc1]
  have hp1C : s1.referralCodeToAddress C = A := by
    rw [i1.2.2.2.2.1, upd_same]
  have ha1 : s1.addressToReferralCode A = C := by
    rw [i1.2.2.2.1, upd_same]
  have hlenC : 0 < (s1.addressToReferralCode A).length := by
    rw [ha1]
    have hne : C.length ≠ 0 := fun hx => i1.2.1 (string_length_eq_zero.mp hx)
    omega
  have hp2 : s2.referralCodeToAddress =
      upd (upd s1.referralCodeToAddress (s1.addressToReferralCode A) 0) D A := by
    rw [i2.2.2.2.2.1, if_pos hlenC]
  have hp2C : s2.referralCodeToAddress C = 0 := by
    rw [hp2, upd_ne _ _ hCD, ha1, upd_same]
  have hp2D : s2.referralCodeToAddress D = A := by
    rw [hp2, upd_same]
  refine ⟨?_, ?_, ?_⟩
  · show getReferrerFromCodeInternal s1 C = A
    by_cases hA : A = 0
    · rw [resolve_zero_of s1 C (by rw [hp1C, hA]) (by rw [hdm1, hdc1]; exact hdemoC), hA]
    · rw [getReferrerFromCode_user (by rw [hp1C]; exact hA), hp1C]
  · show getReferrerFromCodeInternal s2 C = 0
    exact resolve_zero_of s2 C hp2C (by rw [hdm2, hdc2]; exact hdemoC)
  · show getReferrerFromCodeInternal s2 D = A
    by_cases hA : A = 0
    · rw [resolve_zero_of s2 D (by rw [hp2D, hA]) (by rw [hdm2, hdc2]; exact hdemoD), hA]
    · rw [getReferrerFromCode_user (by rw [hp2D]; exact hA), hp2D]

/-- Witness for C7 on concrete data: address 7 registers "AAA" then "BBB"
from the freshly constructed state. -/
theorem register_then_reregister_code_resolution_witness :
    getReferrerFromCode (execState (registerReferralCode baseS 7 "AAA") baseS) "AAA" = 7 ∧
    getReferrerFromCode (execState (registerReferralCode
      (execState (registerReferralCode baseS 7 "AAA") baseS) 7 "BBB")
      (execState (registerReferralCode baseS 7 "AAA") baseS)) "AAA" = 0 ∧
    getReferrerFromCode (execState (registerReferralCode
      (execState (registerReferralCode baseS 7 "AAA") baseS) 7 "BBB")
      (execState (registerReferralCode baseS 7 "AAA") baseS)) "BBB" = 7 :=
  register_then_reregister_code_resolution baseS
    (execState (registerReferralCode baseS 7 "AAA") baseS)
    (execState (registerReferralCode
      (execState (registerReferralCode baseS 7 "AAA") baseS) 7 "BBB")
      (execState (registerReferralCode baseS 7 "AAA") baseS))
    7 "AAA" "BBB" (by decide) (by decide) (by decide) rfl rfl

/-- C8 counterexample: while paused, `registerReferralCode` — a
state-mutating entry point — does not reject with the paused error: it
succeeds and mutates the code registry (the function carries no
`whenNotPaused` modifier). -/
theorem registerReferralCode_not_pause_guarded :
    pausedS.paused = true ∧ pausedS.addressToReferralCode 7 = "" ∧
    ∃ s', registerReferralCode pausedS 7 "HI" = .ok s' ∧
      s'.addressToReferralCode 7 = "HI" :=
  ⟨rfl, rfl, execState (registerReferralCode pausedS 7 "HI") pausedS, rfl, rfl⟩

/-- C8 amended: while paused, the two referral-processing entry points reject
immediately with the paused error and change no observable state, and the
read entry points answer from the last committed state; `registerReferralCode`
however is not pause-guarded: it can still succeed and mutate the registry
while paused. -/
theorem paused_blocks_processing_only (s : State) (hp : s.paused = true) :
    (∀ (sender refereeA referrerA : Addr) (now : Nat),
      processReferral s sender refereeA referrerA now = .error .enforcedPause ∧
      ∀ a, getUserStats (execState (processReferral s sender refereeA referrerA now) s) a =
        getUserStats s a) ∧
    (∀ (sender : Addr) (code : String) (now : Nat),
      processReferralByCode s sender code now = .error .enforcedPause ∧
      ∀ a, getUserStats (execState (processReferralByCode s sender code now) s) a =
        getUserStats s a) ∧
    (∀ (sender : Addr) (code : String), s.frontendMode = true → code ≠ "" →
      s.referralCodeToAddress code = 0 →
      ∃ s', registerReferralCode s sender code = .ok s' ∧ s'.paused = true ∧
        getReferralCode s' sender = code) := by
  refine ⟨fun sender e r now => ?_, fun sender code now => ?_,
    fun sender code hf hc hpool => ?_⟩
  · have hcall := @processReferral_paused s sender e r now hp
    exact ⟨hcall, fun a => by rw [hcall, execState_error]⟩
  · have hcall := @processReferralByCode_paused s sender code now hp
    exact ⟨hcall, fun a => by rw [hcall, execState_error]⟩
  · obtain ⟨s', hs'⟩ := @registerReferralCode_ok_of s sender code hf hc hpool
    have i := registerReferralCode_ok_inversion hs'
    refine ⟨s', hs', ?_, ?_⟩
    · rw [i.2.2.2.2.2.2.1, hp]
    · show s'.addressToReferralCode sender = code
      rw [i.2.2.2.1, upd_same]

/-- Witness for the amended C8 on the concrete paused state. -/
theorem paused_blocks_processing_only_witness :
    processReferral pausedS 2 7 5 99999 = .error .enforcedPause ∧
    processReferralByCode pausedS 7 "REF_ABC123" 99999 = .error .enforcedPause ∧
    ∃ s', registerReferralCode pausedS 7 "HELLO" = .ok s' ∧ s'.paused = true ∧
      getReferralCode s' 7 = "HELLO" := by
  have h := paused_blocks_processing_only pausedS rfl
  exact ⟨(h.1 2 7 5 99999).1, (h.2.1 7 "REF_ABC123" 99999).1,
    h.2.2 7 "HELLO" rfl (by decide) rfl⟩



/-- C9: the demo exemption is decided — only while `demoMode` is on — by
membership in the set of addresses currently mapped by the six
constructor-seeded demo-code keys; a demo code added later via `addDemoCode`
under a fresh key mapping a fresh referrer leaves that referrer subject to
the cooldown (and max-count) checks and, on success, paid the referrer reward
with `lastReferralTime`/`totalReferrals` updated like a real address; and
after `setDemoMode(false)` every address, the seeded demo addresses included,
is treated as a real referrer. -/
theorem demo_exemption_by_seeded_codes :
    (∀ (s : State) (a : Addr),
      isDemoAddress s a = true ↔
        (s.demoMode = true ∧
          (a = s.demoReferralCodes "REF_ABC123" ∨ a = s.demoReferralCodes "REF_DEF456" ∨
           a = s.demoReferralCodes "REF_GHI789" ∨ a = s.demoReferralCodes "REF_JKL012" ∨
           a = s.demoReferralCodes "REF_MNO345" ∨ a = s.demoReferralCodes "REF_PQR678"))) ∧
    (∀ (s s1 : State) (k : String) (r : Addr) (now : Nat) (e : Addr),
      addDemoCode s s.owner k r = .ok s1 →
      k ≠ "REF_ABC123" → k ≠ "REF_DEF456" → k ≠ "REF_GHI789" →
      k ≠ "REF_JKL012" → k ≠ "REF_MNO345" → k ≠ "REF_PQR678" →
      isDemoAddress s r = false →
      s1.referralCodeToAddress k = 0 → s1.demoMode = true →
      s1.paused = false → s1.frontendMode = true →
      e ≠ 0 → e ≠ r → s1.hasBeenReferred e = false →
      getReferrerFromCodeInternal s1 k = r ∧
      (now < s1.lastReferralTime r + s1.minReferralInterval →
        processReferralByCode s1 e k now = .error .referralTooSoon) ∧
      (∀ s2, processReferralByCode s1 e k now = .ok s2 →
        s2.lastReferralTime r = now ∧
        s2.totalReferrals r = s1.totalReferrals r + 1 ∧
        s2.totalRewardsEarned r = s1.totalRewardsEarned r + s1.referrerReward)) ∧
    (∀ (s s' : State) (sender : Addr),
      setDemoMode s sender false = .ok s' → ∀ a, isDemoAddress s' a = false) := by
  refine ⟨?_, ?_, ?_⟩
  · intro s a
    unfold isDemoAddress isDemoAddressCheck
    by_cases hdm : s.demoMode = false
    · simp [hdm]
    · have hdm' : s.demoMode = true := by simpa using hdm
      by_cases hmem : (a = s.demoReferralCodes "REF_ABC123" ∨
          a = s.demoReferralCodes "REF_DEF456" ∨ a = s.demoReferralCodes "REF_GHI789" ∨
          a = s.demoReferralCodes "REF_JKL012" ∨ a = s.demoReferralCodes "REF_MNO345" ∨
          a = s.demoReferralCodes "REF_PQR678") <;> simp [hdm', hmem]
  · intro s s1 k r now e hadd hk1 hk2 hk3 hk4 hk5 hk6 hds hpool hdm hpause hfront he0 her hbr
    obtain ⟨-, hr0, hs1⟩ := addDemoCode_ok_inversion hadd
    subst hs1
    have hds1 : isDemoAddress { s with demoReferralCodes := upd s.demoReferralCodes k r }
        r = false := by
      unfold isDemoAddress isDemoAddressCheck at hds ⊢
      dsimp only
      rw [upd_ne _ _ (Ne.symm hk1), upd_ne _ _ (Ne.symm hk2), upd_ne _ _ (Ne.symm hk3),
        upd_ne _ _ (Ne.symm hk4), upd_ne _ _ (Ne.symm hk5), upd_ne _ _ (Ne.symm hk6)]
      exact hds
    have hres : getReferrerFromCodeInternal
        { s with demoReferralCodes := upd s.demoReferralCodes k r } k = r := by
      rw [getReferrerFromCode_fallback hpool, if_pos hdm]
      exact upd_same _ _ _
    refine ⟨hres, ?_, ?_⟩
    · intro hlt
      rw [processReferralByCode_gates hpause hfront (by rw [hres]; exact hr0), hres]
      exact processReferralInternal_tooSoon he0 hr0 her hbr hds1 hlt
    · intro s2 hok
      have hint := processReferralByCode_ok_internal hok
      rw [hres] at hint
      have hinv := processReferralInternal_ok_inversion hint
      obtain ⟨hlrt, htr, htre_r, -, -⟩ := hinv.2.2.2.2.2.2.2.2.2.2.2.2.2 hds1
      exact ⟨by rw [hlrt, upd_same], by rw [htr, upd_same], htre_r⟩
  · intro s s' sender hset a
    obtain ⟨-, hs'⟩ := setDemoMode_ok_inversion hset
    subst hs'
    rfl

/-- Witness for C9: seeded demo address recognized; a later-added demo code's
referrer (9) is rate-limited like a real user; after `setDemoMode(false)`
nothing is a demo address. -/
theorem demo_exemption_by_seeded_codes_witness :
    isDemoAddress baseS demoAddr1 = true ∧
    processReferralByCode (execState (addDemoCode baseS 1 "NEWCODE" 9) baseS)
      7 "NEWCODE" 100 = .error .referralTooSoon ∧
    ∀ a, isDemoAddress (execState (setDemoMode baseS 1 false) baseS) a = false := by
  refine ⟨?_, ?_, ?_⟩
  · exact (demo_exemption_by_seeded_codes.1 baseS demoAddr1).mpr ⟨rfl, Or.inl (by decide)⟩
  · exact (demo_exemption_by_seeded_codes.2.1 baseS _ "NEWCODE" 9 100 7 rfl
      (by decide) (by decide) (by decide) (by decide) (by decide) (by decide)
      (by decide) rfl rfl rfl rfl (by decide) (by decide) rfl).2.1 (by decide)
  · exact demo_exemption_by_seeded_codes.2.2 baseS _ 1 rfl



/-- C10: starting from any constructor state, every successful
`registerReferralCode` call from a non-zero caller keeps the two user-code
mappings mutually consistent — each address's active code maps back to that
address, each claimed code's owner holds exactly that code — and therefore
every user code is claimed by at most one address. -/
theorem code_mappings_consistent :
    (∀ (selfAddr tokenAddress : Addr) (rReward fReward : Nat) (backendWallet : Addr)
      (minInterval : Nat) (deployer : Addr) (bal : Addr → Nat) (tokenPaused : Bool)
      (s : State),
      initialState selfAddr tokenAddress rReward fReward backendWallet minInterval
        deployer bal tokenPaused = .ok s →
      codeMapsConsistent s) ∧
    (∀ (s s' : State) (sender : Addr) (code : String),
      codeMapsConsistent s → sender ≠ 0 →
      registerReferralCode s sender code = .ok s' → codeMapsConsistent s') ∧
    (∀ (s : State), codeMapsConsistent s →
      ∀ (c1 c2 : String), s.referralCodeToAddress c1 ≠ 0 →
        s.referralCodeToAddress c1 = s.referralCodeToAddress c2 → c1 = c2) := by
  refine ⟨?_, ?_, ?_⟩
  · intro selfAddr tokenAddress rR fR bw mi dep bal tp s h
    unfold initialState at h
    split at h
    · simp at h
    · split at h
      · simp at h
      · split at h
        · simp at h
        · simp only [Except.ok.injEq] at h
          subst h
          exact ⟨rfl, fun a _ ha => absurd rfl ha, fun c hc => absurd rfl hc⟩
  · intro s s' sender code hInv hs hok
    obtain ⟨hemp, hfwd, hbwd⟩ := hInv
    have i := registerReferralCode_ok_inversion hok
    have hcode : code ≠ "" := i.2.1
    have hclaim : s.referralCodeToAddress code = 0 := i.2.2.1
    have hA2C : s'.addressToReferralCode = upd s.addressToReferralCode sender code :=
      i.2.2.2.1
    have hPool : s'.referralCodeToAddress =
        upd (if 0 < (s.addressToReferralCode sender).length then
              upd s.referralCodeToAddress (s.addressToReferralCode sender) 0
            else s.referralCodeToAddress) code sender := i.2.2.2.2.1
    refine ⟨?_, ?_, ?_⟩
    · rw [hPool, upd_ne _ _ (Ne.symm hcode)]
      by_cases hlen : 0 < (s.addressToReferralCode sender).length
      · rw [if_pos hlen]
        have hone : s.addressToReferralCode sender ≠ "" := by
          intro hx
          rw [hx] at hlen
          exact absurd (string_length_eq_zero.mpr rfl) (by omega)
        rw [upd_ne _ _ (Ne.symm hone)]
        exact hemp
      · rw [if_neg hlen]
        exact hemp
    · intro a ha0 hcode_a
      rw [hA2C] at hcode_a ⊢
      by_cases hax : a = sender
      · subst hax
        rw [upd_same, hPool, upd_same]
      · rw [upd_ne _ _ hax] at hcode_a ⊢
        have hc'maps : s.referralCodeToAddress (s.addressToReferralCode a) = a :=
          hfwd a ha0 hcode_a
        have hc'code : s.addressToReferralCode a ≠ code := by
          intro hx
          exact ha0 (by rw [← hc'maps, hx]; exact hclaim)
        rw [hPool, upd_ne _ _ hc'code]
        by_cases hlen : 0 < (s.addressToReferralCode sender).length
        · rw [if_pos hlen]
          have hone : s.addressToReferralCode sender ≠ "" := by
            intro hx
            rw [hx] at hlen
            exact absurd (string_length_eq_zero.mpr rfl) (by omega)
          have hold : s.referralCodeToAddress (s.addressToReferralCode sender) = sender :=
            hfwd sender hs hone
          have hc'old : s.addressToReferralCode a ≠ s.addressToReferralCode sender := by
            intro hx
            exact hax (by rw [← hc'maps, hx]; exact hold)
          rw [upd_ne _ _ hc'old]
          exact hc'maps
        · rw [if_neg hlen]
          exact hc'maps
    · intro c hc
      rw [hPool] at hc ⊢
      by_cases hcx : c = code
      · subst hcx
        rw [upd_same] at hc ⊢
        rw [hA2C, upd_same]
      · rw [upd_ne _ _ hcx] at hc ⊢
        by_cases hlen : 0 < (s.addressToReferralCode sender).length
        · rw [if_pos hlen] at hc ⊢
          by_cases hco : c = s.addressToReferralCode sender
          · rw [hco, upd_same] at hc
            exact absurd rfl hc
          · rw [upd_ne _ _ hco] at hc ⊢
            have hbc := hbwd c hc
            by_cases hax : s.referralCodeToAddress c = sender
            · exact absurd (by rw [← hbc, hax]) hco
            · rw [hA2C, upd_ne _ _ hax]
              exact hbc
        · rw [if_neg hlen] at hc ⊢
          have hbc := hbwd c hc
          by_cases hax : s.referralCodeToAddress c = sender
          · have hold_empty : s.addressToReferralCode sender = "" :=
              string_length_eq_zero.mp (by omega)
            have hcemp : c = "" := by rw [← hbc, hax, hold_empty]
            rw [hcemp] at hc
            exact absurd hemp hc
          · rw [hA2C, upd_ne _ _ hax]
            exact hbc
  · intro s hInv c1 c2 h1 h2
    have b1 := hInv.2.2 c1 h1
    have b2 := hInv.2.2 c2 (by rw [← h2]; exact h1)
    rw [← b1, ← b2, h2]

/-- Witness for C10: the consistency invariant holds on the concrete deployed
state and survives a concrete successful registration. -/
theorem code_mappings_consistent_witness :
    codeMapsConsistent baseS ∧
    codeMapsConsistent (execState (registerReferralCode baseS 7 "AAA") baseS) := by
  have hbase : codeMapsConsistent baseS :=
    ⟨rfl, fun a _ ha => absurd rfl ha, fun c hc => absurd rfl hc⟩
  exact ⟨hbase, code_mappings_consistent.2.1 baseS _ 7 "AAA" hbase (by decide) rfl⟩


end ReferralSystem
